import Mathlib

/-!
Verification of the FileSure project scaffolder (`script.py`).

The program is a straight-line scaffolder: it ensures five directories
exist, touches thirteen empty files (printing a line per file), marks
`scripts/deploy.sh` executable (mode 0o755) and prints a summary.

We embed the POSIX-visible state as a finite association list from path
components to nodes (directories or files with byte contents and a
permission mode), together with a read-only flag for the working
directory and the process umask.  Each filesystem primitive of the
script (`Path.mkdir(parents=True, exist_ok=True)`, `Path.touch()`,
`os.chmod`) is an atomic step that either transforms the state or fails
leaving it unchanged; the script's control flow threads the state and
stops at the first failure, keeping the partially-updated state and the
output printed so far — exactly what an uncaught Python exception does.
-/

namespace Scaffold

/-- A path, as its list of `/`-separated components. -/
abbrev PathC := List String

/-- A filesystem node: a directory (with its permission mode) or a
regular file (with its byte contents and permission mode). -/
inductive Node where
  | dir (mode : Nat)
  | file (content : List Nat) (mode : Nat)
  deriving DecidableEq, Repr

/-- An operating-system-level failure (the spec's single IOError class);
the constructors record the usual POSIX flavours. -/
inductive Err where
  | permissionDenied
  | fileExists
  | notADirectory
  | fileNotFound
  deriving DecidableEq, Repr

/-- Filesystem state: the nodes that exist (keyed by component path),
whether the working directory is read-only (creations fail), and the
process umask (applied to freshly created nodes). -/
structure FS where
  nodes : List (PathC × Node)
  readOnly : Bool
  umask : Nat
  deriving DecidableEq, Repr

/-- Look a path up in the node list (first match). -/
def lookupFS : List (PathC × Node) → PathC → Option Node
  | [], _ => none
  | (q, n) :: rest, p => if q = p then some n else lookupFS rest p

/-- Replace the node at a path, or append a fresh binding. -/
def setFS : List (PathC × Node) → PathC → Node → List (PathC × Node)
  | [], p, n => [(p, n)]
  | (q, m) :: rest, p, n =>
    if q = p then (p, n) :: rest else (q, m) :: setFS rest p n

/-- Split a character list at every occurrence of `sep`. -/
def splitOnChar (sep : Char) : List Char → List (List Char)
  | [] => [[]]
  | c :: rest =>
    match splitOnChar sep rest with
    | [] => [[]]
    | g :: gs => if c = sep then [] :: g :: gs else (c :: g) :: gs

/-- Components of a relative path string such as `".github/workflows"`. -/
def splitPath (s : String) : PathC :=
  (splitOnChar '/' s.data).map (fun cs => String.mk cs)

/-- The non-empty prefixes of a component path, shortest first: these are
the directories `Path.mkdir(parents=True)` creates in order. -/
def prefixesNE (p : PathC) : List PathC :=
  (List.range p.length).map (fun i => p.take (i + 1))

/-- Mode given by POSIX to a fresh node created with maximal requested
permissions `base` (0o777 for `mkdir`, 0o666 for `touch`/`open`) under
umask `u`: `base AND (NOT u)` on the low nine bits. -/
def maskedMode (base u : Nat) : Nat :=
  base &&& (0o777 ^^^ (u &&& 0o777))

/-- Default mode of a file created by `Path.touch()` (0o666 & ~umask). -/
def touchMode (u : Nat) : Nat := maskedMode 0o666 u

/-- Default mode of a directory created by `Path.mkdir()` (0o777 & ~umask). -/
def dirMode (u : Nat) : Nat := maskedMode 0o777 u

/-- Does the parent of `p` exist as a directory (the empty path is the
working directory, always present)? -/
def parentIsDir (fs : FS) (p : PathC) : Bool :=
  match p.dropLast with
  | [] => true
  | q => match lookupFS fs.nodes q with
    | some (.dir _) => true
    | _ => false

/-- One `mkdir` step at component path `p` with `exist_ok` semantics: a
present directory is fine, a present file raises, and a fresh directory
is created (failing if the tree is read-only or the parent is missing). -/
def mkdirOne (fs : FS) (p : PathC) : Except Err FS :=
  match lookupFS fs.nodes p with
  | some (.dir _) => .ok fs
  | some (.file _ _) => .error .fileExists
  | none =>
    if fs.readOnly then .error .permissionDenied
    else if parentIsDir fs p then
      .ok { fs with nodes := setFS fs.nodes p (.dir (dirMode fs.umask)) }
    else .error .fileNotFound

/-- Run `mkdirOne` over a list of component paths, stopping at the first
failure and keeping the state reached so far. -/
def mkdirSeq : FS → List PathC → FS × Option Err
  | fs, [] => (fs, none)
  | fs, p :: ps =>
    match mkdirOne fs p with
    | .error e => (fs, some e)
    | .ok fs' => mkdirSeq fs' ps

/-- `Path(d).mkdir(parents=True, exist_ok=True)`: create every missing
prefix of `d`, shortest first. -/
def mkdirParents (fs : FS) (d : String) : FS × Option Err :=
  mkdirSeq fs (prefixesNE (splitPath d))

/-- The directory-creation loop of `create_project_structure`. -/
def mkdirPhase : FS → List String → FS × Option Err
  | fs, [] => (fs, none)
  | fs, d :: ds =>
    match mkdirParents fs d with
    | (fs', some e) => (fs', some e)
    | (fs', none) => mkdirPhase fs' ds

/-- `Path(p).touch()`: an existing node (file or directory) is left
untouched (only timestamps change); otherwise an empty file with the
umask-derived default mode is created, failing if the tree is read-only
or the parent directory is missing. -/
def touch (fs : FS) (p : PathC) : Except Err FS :=
  match lookupFS fs.nodes p with
  | some _ => .ok fs
  | none =>
    if fs.readOnly then .error .permissionDenied
    else if parentIsDir fs p then
      .ok { fs with nodes := setFS fs.nodes p (.file [] (touchMode fs.umask)) }
    else .error .fileNotFound

/-- The file-creation loop: touch each file and print `Created: <path>`
after each successful touch; stop at the first failure, keeping the
state and the lines printed so far. -/
def touchPhase : FS → List String → FS × List String × Option Err
  | fs, [] => (fs, [], none)
  | fs, f :: rest =>
    match touch fs (splitPath f) with
    | .error e => (fs, [], some e)
    | .ok fs' =>
      match touchPhase fs' rest with
      | (fs'', out, err) => (fs'', ("Created: " ++ f) :: out, err)

/-- `os.chmod(p, m)`: set the permission mode of an existing node. -/
def chmod (fs : FS) (p : PathC) (m : Nat) : Except Err FS :=
  match lookupFS fs.nodes p with
  | none => .error .fileNotFound
  | some (.dir _) => .ok { fs with nodes := setFS fs.nodes p (.dir m) }
  | some (.file c _) => .ok { fs with nodes := setFS fs.nodes p (.file c m) }

/-- The `directories` manifest of `create_project_structure`. -/
def directories : List String :=
  ["api", "worker", "k8s", "scripts", ".github/workflows"]

/-- The `files_to_create` manifest of `create_project_structure`. -/
def files_to_create : List String :=
  ["api/Dockerfile",
   "worker/Dockerfile",
   "k8s/01-namespace-config.yaml",
   "k8s/02-mongodb.yaml",
   "k8s/03-api-service.yaml",
   "k8s/04-keda-scaledjob.yaml",
   "k8s/05-prometheus.yaml",
   "k8s/06-grafana.yaml",
   ".github/workflows/ci-cd.yml",
   "scripts/deploy.sh",
   "env.example",
   "docker-compose.dev.yml",
   "Makefile"]

/-- The path chmodded executable by the script. -/
def deployPath : PathC := splitPath "scripts/deploy.sh"

/-- Argument of the script's summary `print` (the f-string starts with a
newline, so this one call prints a blank line and then the count line). -/
def summaryArg : String :=
  "\nCreated " ++ toString files_to_create.length ++ " files and "
    ++ toString directories.length ++ " directories"

/-- Argument of the script's final usage-hint `print`. -/
def hintArg : String :=
  "You can now copy the specific code content into each file."

/-- `create_project_structure()`: create the directories, touch the
files (printing a line each), chmod `scripts/deploy.sh` to 0o755, print
the summary and the hint.  The result is the final filesystem, the
arguments of the executed `print` calls in order, and the uncaught
error, if any; on an error the state and output reached so far are kept
and nothing further runs. -/
def create_project_structure (fs : FS) : FS × List String × Option Err :=
  match mkdirPhase fs directories with
  | (fs1, some e) => (fs1, [], some e)
  | (fs1, none) =>
    match touchPhase fs1 files_to_create with
    | (fs2, out, some e) => (fs2, out, some e)
    | (fs2, out, none) =>
      match chmod fs2 deployPath 0o755 with
      | .error e => (fs2, out, some e)
      | .ok fs3 => (fs3, out ++ [summaryArg, hintArg], none)

/-- Exit status of running the script as `__main__`: 0 on success, and
a nonzero status when the filesystem error propagates uncaught. -/
def exitCode (fs : FS) : Nat :=
  match (create_project_structure fs).2.2 with
  | none => 0
  | some _ => 1

/-- The lines of standard output produced by a sequence of `print`
calls: each call emits its argument plus a newline, so the lines are
the newline-split pieces of the arguments, concatenated. -/
def stdoutLines (out : List String) : List String :=
  out.flatMap (fun s => (splitOnChar '\n' s.data).map (fun cs => String.mk cs))

/-- An empty (clean) writable working directory under umask `u`. -/
def emptyFS (u : Nat) : FS := { nodes := [], readOnly := false, umask := u }

/-- An empty working directory that is read-only, under umask `u`. -/
def emptyRO (u : Nat) : FS := { nodes := [], readOnly := true, umask := u }

/-- Does `p` name a directory in `fs`? (ignores the mode). -/
def isDirAt (fs : FS) (p : String) : Bool :=
  match lookupFS fs.nodes (splitPath p) with
  | some (.dir _) => true
  | _ => false

/-- Does `p` name a zero-byte regular file in `fs`? (ignores the mode). -/
def isEmptyFileAt (fs : FS) (p : String) : Bool :=
  match lookupFS fs.nodes (splitPath p) with
  | some (.file c _) => c = []
  | _ => false

/-- Permission mode of a node. -/
def nodeMode : Node → Nat
  | .dir m => m
  | .file _ m => m

/-- Is this lookup result a directory? -/
def isDirNode : Option Node → Bool
  | some (.dir _) => true
  | _ => false

/-- Every directory the mkdir loop touches: all non-empty prefixes of
every manifest directory. -/
def allDirPrefixes (ds : List String) : List PathC :=
  ds.flatMap (fun d => prefixesNE (splitPath d))

/-- Does an output line report a file creation (the fixed
"Created: " tag, colon included, printed once per touched file)? -/
def hasCreatedTag (l : String) : Bool :=
  l.data.take 9 = "Created: ".data

/-- The print-call arguments of a successful run. -/
def runOut : List String :=
  files_to_create.map (fun f => "Created: " ++ f) ++ [summaryArg, hintArg]

/-- The state a successful run leaves behind when started from an empty
working directory under umask u: the five directories (with their
parents), twelve empty files with the default touch mode, and
scripts/deploy.sh with mode 0o755. -/
def scaffoldedFS (u : Nat) : FS :=
  { nodes :=
      [(["api"], .dir (dirMode u)),
       (["worker"], .dir (dirMode u)),
       (["k8s"], .dir (dirMode u)),
       (["scripts"], .dir (dirMode u)),
       ([".github"], .dir (dirMode u)),
       ([".github", "workflows"], .dir (dirMode u)),
       (["api", "Dockerfile"], .file [] (touchMode u)),
       (["worker", "Dockerfile"], .file [] (touchMode u)),
       (["k8s", "01-namespace-config.yaml"], .file [] (touchMode u)),
       (["k8s", "02-mongodb.yaml"], .file [] (touchMode u)),
       (["k8s", "03-api-service.yaml"], .file [] (touchMode u)),
       (["k8s", "04-keda-scaledjob.yaml"], .file [] (touchMode u)),
       (["k8s", "05-prometheus.yaml"], .file [] (touchMode u)),
       (["k8s", "06-grafana.yaml"], .file [] (touchMode u)),
       ([".github", "workflows", "ci-cd.yml"], .file [] (touchMode u)),
       (["scripts", "deploy.sh"], .file [] 0o755),
       (["env.example"], .file [] (touchMode u)),
       (["docker-compose.dev.yml"], .file [] (touchMode u)),
       (["Makefile"], .file [] (touchMode u))],
    readOnly := false,
    umask := u }

/-- The ASCII bytes of the string "placeholder". -/
def placeholderContent : List Nat :=
  [112, 108, 97, 99, 101, 104, 111, 108, 100, 101, 114]

/-- A working directory where k8s/02-mongodb.yaml was pre-created with
the content "placeholder" before the run. -/
def preMongoFS : FS :=
  { nodes :=
      [(["k8s"], .dir 0o755),
       (["k8s", "02-mongodb.yaml"], .file placeholderContent 0o644)],
    readOnly := false,
    umask := 18 }

/-- A working directory where scripts/deploy.sh was pre-created with
mode 0 before the run. -/
def preDeployFS : FS :=
  { nodes :=
      [(["scripts"], .dir 0o755),
       (["scripts", "deploy.sh"], .file [] 0)],
    readOnly := false,
    umask := 18 }

/-! Basic facts about the association-list store. -/

theorem lookupFS_setFS (p : PathC) (n : Node) :
    ∀ (ns : List (PathC × Node)) (q : PathC),
      lookupFS (setFS ns p n) q = if q = p then some n else lookupFS ns q := by
  intro ns
  induction ns with
  | nil =>
    intro q
    by_cases h : q = p
    · subst h; simp [setFS, lookupFS]
    · simp [setFS, lookupFS, h, Ne.symm h]
  | cons hd tl ih =>
    intro q
    obtain ⟨k, v⟩ := hd
    by_cases hk : k = p
    · subst hk
      by_cases hq : q = k
      · subst hq; simp [setFS, lookupFS]
      · simp [setFS, lookupFS, hq, Ne.symm hq]
    · by_cases hq : q = k
      · subst hq; simp [setFS, lookupFS, hk, Ne.symm hk]
      · simp [setFS, lookupFS, hk, hq, Ne.symm hq, ih]

/-! Shapes of the three atomic filesystem operations when they succeed. -/

theorem mkdirOne_ok_cases (fs : FS) (p : PathC) (fs' : FS)
    (h : mkdirOne fs p = .ok fs') :
    (fs' = fs ∧ ∃ m, lookupFS fs.nodes p = some (.dir m)) ∨
      (lookupFS fs.nodes p = none ∧ fs.readOnly = false ∧
        fs' = { fs with nodes := setFS fs.nodes p (.dir (dirMode fs.umask)) }) := by
  unfold mkdirOne at h
  cases hl : lookupFS fs.nodes p with
  | none =>
    rw [hl] at h
    by_cases hro : fs.readOnly
    · simp [hro] at h
    · simp only [hro, if_false, Bool.false_eq_true] at h
      by_cases hp : parentIsDir fs p
      · simp only [hp, if_true] at h
        right
        refine ⟨rfl, by simp [hro], ?_⟩
        rw [Bool.not_eq_true] at hro
        cases h
        rw [hro]
      · simp [hp] at h
  | some nd =>
    rw [hl] at h
    cases nd with
    | dir m =>
      left
      refine ⟨?_, m, rfl⟩
      cases h; rfl
    | file c m => simp at h

theorem touch_ok_cases (fs : FS) (p : PathC) (fs' : FS)
    (h : touch fs p = .ok fs') :
    (fs' = fs ∧ ∃ n, lookupFS fs.nodes p = some n) ∨
      (lookupFS fs.nodes p = none ∧ fs.readOnly = false ∧
        fs' = { fs with nodes := setFS fs.nodes p (.file [] (touchMode fs.umask)) }) := by
  unfold touch at h
  cases hl : lookupFS fs.nodes p with
  | none =>
    rw [hl] at h
    by_cases hro : fs.readOnly
    · simp [hro] at h
    · simp only [hro, if_false, Bool.false_eq_true] at h
      by_cases hp : parentIsDir fs p
      · simp only [hp, if_true] at h
        right
        refine ⟨rfl, by simp [hro], ?_⟩
        rw [Bool.not_eq_true] at hro
        cases h
        rw [hro]
      · simp [hp] at h
  | some nd =>
    rw [hl] at h
    left
    exact ⟨by cases h; rfl, nd, rfl⟩

theorem chmod_ok_cases (fs : FS) (p : PathC) (m : Nat) (fs' : FS)
    (h : chmod fs p m = .ok fs') :
    (∃ mo, lookupFS fs.nodes p = some (.dir mo) ∧
        fs' = { fs with nodes := setFS fs.nodes p (.dir m) }) ∨
      (∃ c mo, lookupFS fs.nodes p = some (.file c mo) ∧
        fs' = { fs with nodes := setFS fs.nodes p (.file c m) }) := by
  unfold chmod at h
  cases hl : lookupFS fs.nodes p with
  | none => rw [hl] at h; simp at h
  | some nd =>
    rw [hl] at h
    cases nd with
    | dir mo => exact .inl ⟨mo, rfl, by cases h; rfl⟩
    | file c mo => exact .inr ⟨c, mo, rfl, by cases h; rfl⟩

/-! Frame and progress lemmas for the single steps. -/

theorem mkdirOne_ok_flags {fs fs' : FS} {p : PathC} (h : mkdirOne fs p = .ok fs') :
    fs'.readOnly = fs.readOnly ∧ fs'.umask = fs.umask := by
  rcases mkdirOne_ok_cases fs p fs' h with ⟨rfl, -⟩ | ⟨-, -, rfl⟩ <;> exact ⟨rfl, rfl⟩

theorem mkdirOne_ok_pres {fs fs' : FS} {p q : PathC} {n : Node}
    (h : mkdirOne fs p = .ok fs') (hq : lookupFS fs.nodes q = some n) :
    lookupFS fs'.nodes q = some n := by
  rcases mkdirOne_ok_cases fs p fs' h with ⟨rfl, -⟩ | ⟨hnone, -, rfl⟩
  · exact hq
  · have hne : q ≠ p := by
      intro e; rw [e, hnone] at hq; cases hq
    rw [show ({ fs with nodes := setFS fs.nodes p (.dir (dirMode fs.umask)) } : FS).nodes
        = setFS fs.nodes p (.dir (dirMode fs.umask)) from rfl,
      lookupFS_setFS, if_neg hne]
    exact hq

theorem mkdirOne_ok_frame {fs fs' : FS} {p q : PathC}
    (h : mkdirOne fs p = .ok fs') (hne : q ≠ p) :
    lookupFS fs'.nodes q = lookupFS fs.nodes q := by
  rcases mkdirOne_ok_cases fs p fs' h with ⟨rfl, -⟩ | ⟨-, -, rfl⟩
  · rfl
  · rw [show ({ fs with nodes := setFS fs.nodes p (.dir (dirMode fs.umask)) } : FS).nodes
        = setFS fs.nodes p (.dir (dirMode fs.umask)) from rfl,
      lookupFS_setFS, if_neg hne]

theorem mkdirOne_ok_makes {fs fs' : FS} {p : PathC} (h : mkdirOne fs p = .ok fs') :
    ∃ m, lookupFS fs'.nodes p = some (.dir m) := by
  rcases mkdirOne_ok_cases fs p fs' h with ⟨rfl, m, hm⟩ | ⟨-, -, rfl⟩
  · exact ⟨m, hm⟩
  · refine ⟨dirMode fs.umask, ?_⟩
    rw [show ({ fs with nodes := setFS fs.nodes p (.dir (dirMode fs.umask)) } : FS).nodes
        = setFS fs.nodes p (.dir (dirMode fs.umask)) from rfl,
      lookupFS_setFS, if_pos rfl]

theorem touch_ok_flags {fs fs' : FS} {p : PathC} (h : touch fs p = .ok fs') :
    fs'.readOnly = fs.readOnly ∧ fs'.umask = fs.umask := by
  rcases touch_ok_cases fs p fs' h with ⟨rfl, -⟩ | ⟨-, -, rfl⟩ <;> exact ⟨rfl, rfl⟩

theorem touch_ok_pres {fs fs' : FS} {p q : PathC} {n : Node}
    (h : touch fs p = .ok fs') (hq : lookupFS fs.nodes q = some n) :
    lookupFS fs'.nodes q = some n := by
  rcases touch_ok_cases fs p fs' h with ⟨rfl, -⟩ | ⟨hnone, -, rfl⟩
  · exact hq
  · have hne : q ≠ p := by
      intro e; rw [e, hnone] at hq; cases hq
    rw [show ({ fs with nodes := setFS fs.nodes p (.file [] (touchMode fs.umask)) } : FS).nodes
        = setFS fs.nodes p (.file [] (touchMode fs.umask)) from rfl,
      lookupFS_setFS, if_neg hne]
    exact hq

theorem chmod_ok_frame {fs fs' : FS} {p q : PathC} {m : Nat}
    (h : chmod fs p m = .ok fs') (hne : q ≠ p) :
    lookupFS fs'.nodes q = lookupFS fs.nodes q := by
  rcases chmod_ok_cases fs p m fs' h with ⟨mo, -, rfl⟩ | ⟨c, mo, -, rfl⟩ <;>
    simp only [lookupFS_setFS, if_neg hne]

theorem chmod_ok_self {fs fs' : FS} {p : PathC} {m : Nat}
    (h : chmod fs p m = .ok fs') :
    ∃ n, lookupFS fs'.nodes p = some n ∧ nodeMode n = m := by
  rcases chmod_ok_cases fs p m fs' h with ⟨mo, -, rfl⟩ | ⟨c, mo, -, rfl⟩
  · exact ⟨.dir m, by simp [lookupFS_setFS], rfl⟩
  · exact ⟨.file c m, by simp [lookupFS_setFS], rfl⟩

theorem chmod_ok_file_self {fs fs' : FS} {p : PathC} {m : Nat} {c : List Nat} {mo : Nat}
    (h : chmod fs p m = .ok fs') (hq : lookupFS fs.nodes p = some (.file c mo)) :
    lookupFS fs'.nodes p = some (.file c m) := by
  rcases chmod_ok_cases fs p m fs' h with ⟨m1, hm1, rfl⟩ | ⟨c1, m1, hm1, rfl⟩
  · rw [hq] at hm1; cases hm1
  · rw [hq] at hm1
    cases hm1
    simp [lookupFS_setFS]

theorem chmod_ok_content {fs fs' : FS} {p q : PathC} {m : Nat} {c : List Nat} {mo : Nat}
    (h : chmod fs p m = .ok fs') (hq : lookupFS fs.nodes q = some (.file c mo)) :
    ∃ m1, lookupFS fs'.nodes q = some (.file c m1) := by
  by_cases he : q = p
  · subst he
    exact ⟨m, chmod_ok_file_self h hq⟩
  · exact ⟨mo, by rw [chmod_ok_frame h he]; exact hq⟩

/-! Path-shape facts. -/

theorem splitOnChar_ne_nil (sep : Char) : ∀ l : List Char, splitOnChar sep l ≠ [] := by
  intro l
  cases l with
  | nil => simp [splitOnChar]
  | cons c rest =>
    rw [splitOnChar]
    cases h : splitOnChar sep rest with
    | nil => simp
    | cons g gs => by_cases hc : c = sep <;> simp [hc]

theorem splitPath_ne_nil (s : String) : splitPath s ≠ [] := by
  unfold splitPath
  intro h
  exact splitOnChar_ne_nil '/' s.data (List.map_eq_nil_iff.mp h)

theorem self_mem_prefixesNE (p : PathC) (hp : p ≠ []) : p ∈ prefixesNE p := by
  unfold prefixesNE
  have hl : 0 < p.length := List.length_pos.mpr hp
  refine List.mem_map.mpr ⟨p.length - 1, List.mem_range.mpr (by omega), ?_⟩
  have he : p.length - 1 + 1 = p.length := by omega
  rw [he, List.take_length]

/-! Lemmas about the directory-creation phase. -/

theorem mkdirSeq_ok_pres :
    ∀ (ps : List PathC) (fs fs' : FS), mkdirSeq fs ps = (fs', none) →
      ∀ (q : PathC) (n : Node), lookupFS fs.nodes q = some n →
        lookupFS fs'.nodes q = some n := by
  intro ps
  induction ps with
  | nil =>
    intro fs fs' h q n hq
    simp only [mkdirSeq, Prod.mk.injEq] at h
    rw [← h.1]; exact hq
  | cons p rest ih =>
    intro fs fs' h q n hq
    unfold mkdirSeq at h
    cases hm : mkdirOne fs p with
    | error e => rw [hm] at h; simp at h
    | ok fs1 =>
      rw [hm] at h
      exact ih fs1 fs' h q n (mkdirOne_ok_pres hm hq)

theorem mkdirSeq_ok_frame :
    ∀ (ps : List PathC) (fs fs' : FS), mkdirSeq fs ps = (fs', none) →
      ∀ q : PathC, q ∉ ps → lookupFS fs'.nodes q = lookupFS fs.nodes q := by
  intro ps
  induction ps with
  | nil =>
    intro fs fs' h q _
    simp only [mkdirSeq, Prod.mk.injEq] at h
    rw [← h.1]
  | cons p rest ih =>
    intro fs fs' h q hq
    unfold mkdirSeq at h
    cases hm : mkdirOne fs p with
    | error e => rw [hm] at h; simp at h
    | ok fs1 =>
      rw [hm] at h
      have hq1 : q ∉ rest := fun hc => hq (List.mem_cons_of_mem _ hc)
      have hqp : q ≠ p := fun hc => hq (hc ▸ List.mem_cons_self _ _)
      rw [ih fs1 fs' h q hq1, mkdirOne_ok_frame hm hqp]

theorem mkdirSeq_ok_makes :
    ∀ (ps : List PathC) (fs fs' : FS), mkdirSeq fs ps = (fs', none) →
      ∀ p ∈ ps, ∃ m, lookupFS fs'.nodes p = some (.dir m) := by
  intro ps
  induction ps with
  | nil => intro fs fs' _ p hp; cases hp
  | cons p rest ih =>
    intro fs fs' h p' hp'
    unfold mkdirSeq at h
    cases hm : mkdirOne fs p with
    | error e => rw [hm] at h; simp at h
    | ok fs1 =>
      rw [hm] at h
      rcases List.mem_cons.mp hp' with rfl | hmem
      · obtain ⟨m, hdir⟩ := mkdirOne_ok_makes hm
        exact ⟨m, mkdirSeq_ok_pres rest fs1 fs' h p' _ hdir⟩
      · exact ih fs1 fs' h p' hmem

theorem mkdirSeq_flags :
    ∀ (ps : List PathC) (fs fs' : FS) (e : Option Err), mkdirSeq fs ps = (fs', e) →
      fs'.readOnly = fs.readOnly ∧ fs'.umask = fs.umask := by
  intro ps
  induction ps with
  | nil =>
    intro fs fs' e h
    simp only [mkdirSeq, Prod.mk.injEq] at h
    rw [← h.1]; exact ⟨rfl, rfl⟩
  | cons p rest ih =>
    intro fs fs' e h
    unfold mkdirSeq at h
    cases hm : mkdirOne fs p with
    | error e1 =>
      rw [hm] at h
      simp only [Prod.mk.injEq] at h
      rw [← h.1]; exact ⟨rfl, rfl⟩
    | ok fs1 =>
      rw [hm] at h
      obtain ⟨h1, h2⟩ := ih fs1 fs' e h
      obtain ⟨h3, h4⟩ := mkdirOne_ok_flags hm
      exact ⟨h1.trans h3, h2.trans h4⟩

theorem mkdirPhase_ok_pres :
    ∀ (ds : List String) (fs fs' : FS), mkdirPhase fs ds = (fs', none) →
      ∀ (q : PathC) (n : Node), lookupFS fs.nodes q = some n →
        lookupFS fs'.nodes q = some n := by
  intro ds
  induction ds with
  | nil =>
    intro fs fs' h q n hq
    simp only [mkdirPhase, Prod.mk.injEq] at h
    rw [← h.1]; exact hq
  | cons d rest ih =>
    intro fs fs' h q n hq
    unfold mkdirPhase at h
    cases hp : mkdirParents fs d with
    | mk fs1 e1 =>
      cases e1 with
      | some e => rw [hp] at h; simp at h
      | none =>
        rw [hp] at h
        unfold mkdirParents at hp
        exact ih fs1 fs' h q n (mkdirSeq_ok_pres _ fs fs1 hp q n hq)

theorem mkdirPhase_ok_frame :
    ∀ (ds : List String) (fs fs' : FS), mkdirPhase fs ds = (fs', none) →
      ∀ q : PathC, q ∉ allDirPrefixes ds →
        lookupFS fs'.nodes q = lookupFS fs.nodes q := by
  intro ds
  induction ds with
  | nil =>
    intro fs fs' h q _
    simp only [mkdirPhase, Prod.mk.injEq] at h
    rw [← h.1]
  | cons d rest ih =>
    intro fs fs' h q hq
    rw [allDirPrefixes, List.flatMap_cons, List.mem_append] at hq
    push_neg at hq
    unfold mkdirPhase at h
    cases hp : mkdirParents fs d with
    | mk fs1 e1 =>
      cases e1 with
      | some e => rw [hp] at h; simp at h
      | none =>
        rw [hp] at h
        unfold mkdirParents at hp
        rw [ih fs1 fs' h q hq.2, mkdirSeq_ok_frame _ fs fs1 hp q hq.1]

theorem mkdirPhase_ok_makes :
    ∀ (ds : List String) (fs fs' : FS), mkdirPhase fs ds = (fs', none) →
      ∀ d ∈ ds, ∃ m, lookupFS fs'.nodes (splitPath d) = some (.dir m) := by
  intro ds
  induction ds with
  | nil => intro fs fs' _ d hd; cases hd
  | cons d rest ih =>
    intro fs fs' h d' hd'
    unfold mkdirPhase at h
    cases hp : mkdirParents fs d with
    | mk fs1 e1 =>
      cases e1 with
      | some e => rw [hp] at h; simp at h
      | none =>
        rw [hp] at h
        rcases List.mem_cons.mp hd' with rfl | hmem
        · unfold mkdirParents at hp
          obtain ⟨m, hdir⟩ := mkdirSeq_ok_makes _ fs fs1 hp (splitPath d')
            (self_mem_prefixesNE _ (splitPath_ne_nil d'))
          exact ⟨m, mkdirPhase_ok_pres rest fs1 fs' h _ _ hdir⟩
        · exact ih fs1 fs' h d' hmem

theorem mkdirPhase_flags :
    ∀ (ds : List String) (fs fs' : FS) (e : Option Err), mkdirPhase fs ds = (fs', e) →
      fs'.readOnly = fs.readOnly ∧ fs'.umask = fs.umask := by
  intro ds
  induction ds with
  | nil =>
    intro fs fs' e h
    simp only [mkdirPhase, Prod.mk.injEq] at h
    rw [← h.1]; exact ⟨rfl, rfl⟩
  | cons d rest ih =>
    intro fs fs' e h
    unfold mkdirPhase at h
    cases hp : mkdirParents fs d with
    | mk fs1 e1 =>
      cases e1 with
      | some e2 =>
        rw [hp] at h
        unfold mkdirParents at hp
        obtain ⟨h3, h4⟩ := mkdirSeq_flags _ fs fs1 _ hp
        simp only [Prod.mk.injEq] at h
        rw [← h.1]; exact ⟨h3, h4⟩
      | none =>
        rw [hp] at h
        unfold mkdirParents at hp
        obtain ⟨h3, h4⟩ := mkdirSeq_flags _ fs fs1 _ hp
        obtain ⟨h1, h2⟩ := ih fs1 fs' e h
        exact ⟨h1.trans h3, h2.trans h4⟩

/-! Lemmas about the file-creation phase. -/

theorem touchPhase_ok_pres :
    ∀ (ps : List String) (fs fs' : FS) (out : List String),
      touchPhase fs ps = (fs', out, none) →
      ∀ (q : PathC) (n : Node), lookupFS fs.nodes q = some n →
        lookupFS fs'.nodes q = some n := by
  intro ps
  induction ps with
  | nil =>
    intro fs fs' out h q n hq
    simp only [touchPhase, Prod.mk.injEq] at h
    rw [← h.1]; exact hq
  | cons f rest ih =>
    intro fs fs' out h q n hq
    unfold touchPhase at h
    cases ht : touch fs (splitPath f) with
    | error e => rw [ht] at h; simp at h
    | ok fs1 =>
      rw [ht] at h
      cases hr : touchPhase fs1 rest with
      | mk fs2 r2 =>
        obtain ⟨out2, err2⟩ := r2
        simp only [hr, Prod.mk.injEq] at h
        obtain ⟨rfl, -, herr⟩ := h
        cases herr
        exact ih fs1 _ _ hr q n (touch_ok_pres ht hq)

theorem touchPhase_ok_makes :
    ∀ (ps : List String) (fs fs' : FS) (out : List String),
      touchPhase fs ps = (fs', out, none) →
      ∀ f ∈ ps, lookupFS fs.nodes (splitPath f) = none →
        lookupFS fs'.nodes (splitPath f) = some (.file [] (touchMode fs.umask)) := by
  intro ps
  induction ps with
  | nil => intro fs fs' out _ f hf; cases hf
  | cons g rest ih =>
    intro fs fs' out h f hf hnone
    unfold touchPhase at h
    cases ht : touch fs (splitPath g) with
    | error e => rw [ht] at h; simp at h
    | ok fs1 =>
      rw [ht] at h
      cases hr : touchPhase fs1 rest with
      | mk fs2 r2 =>
        obtain ⟨out2, err2⟩ := r2
        simp only [hr, Prod.mk.injEq] at h
        obtain ⟨rfl, -, herr⟩ := h
        cases herr
        rcases List.mem_cons.mp hf with rfl | hmem
        · rcases touch_ok_cases fs (splitPath f) fs1 ht with ⟨rfl, n, hn⟩ | ⟨-, -, rfl⟩
          · rw [hnone] at hn; cases hn
          · refine touchPhase_ok_pres rest _ _ _ hr _ _ ?_
            simp [lookupFS_setFS]
        · rcases touch_ok_cases fs (splitPath g) fs1 ht with ⟨rfl, -⟩ | ⟨hgnone, -, rfl⟩
          · exact ih _ fs2 out2 hr f hmem hnone
          · by_cases he : splitPath f = splitPath g
            · refine touchPhase_ok_pres rest _ _ _ hr _ _ ?_
              simp [lookupFS_setFS, he]
            · have h1 : lookupFS
                  (setFS fs.nodes (splitPath g) (.file [] (touchMode fs.umask)))
                  (splitPath f) = none := by
                rw [lookupFS_setFS, if_neg he]; exact hnone
              exact ih _ fs2 out2 hr f hmem h1

theorem touchPhase_ok_kind :
    ∀ (ps : List String) (fs fs' : FS) (out : List String),
      touchPhase fs ps = (fs', out, none) →
      ∀ f ∈ ps, (∃ c m, lookupFS fs'.nodes (splitPath f) = some (.file c m)) ∨
        (∃ m, lookupFS fs.nodes (splitPath f) = some (.dir m)) := by
  intro ps fs fs' out h f hf
  cases hl : lookupFS fs.nodes (splitPath f) with
  | none =>
    exact .inl ⟨[], touchMode fs.umask, touchPhase_ok_makes ps fs fs' out h f hf hl⟩
  | some nd =>
    cases nd with
    | dir m => exact .inr ⟨m, rfl⟩
    | file c m => exact .inl ⟨c, m, touchPhase_ok_pres ps fs fs' out h _ _ hl⟩

theorem touchPhase_ok_out :
    ∀ (ps : List String) (fs fs' : FS) (out : List String),
      touchPhase fs ps = (fs', out, none) →
      out = ps.map (fun f => "Created: " ++ f) := by
  intro ps
  induction ps with
  | nil =>
    intro fs fs' out h
    simp only [touchPhase, Prod.mk.injEq] at h
    rw [← h.2.1]; rfl
  | cons f rest ih =>
    intro fs fs' out h
    unfold touchPhase at h
    cases ht : touch fs (splitPath f) with
    | error e => rw [ht] at h; simp at h
    | ok fs1 =>
      rw [ht] at h
      cases hr : touchPhase fs1 rest with
      | mk fs2 r2 =>
        obtain ⟨out2, err2⟩ := r2
        simp only [hr, Prod.mk.injEq] at h
        obtain ⟨-, hout, herr⟩ := h
        cases herr
        rw [← hout, List.map_cons, ih fs1 fs2 out2 hr]

/-! Decomposition of a successful run into its phases. -/

theorem run_ok_decomp {fs fs' : FS} {out : List String}
    (h : create_project_structure fs = (fs', out, none)) :
    ∃ fs1 fs2 out2,
      mkdirPhase fs directories = (fs1, none) ∧
      touchPhase fs1 files_to_create = (fs2, out2, none) ∧
      chmod fs2 deployPath 0o755 = .ok fs' ∧
      out = out2 ++ [summaryArg, hintArg] := by
  unfold create_project_structure at h
  cases h1 : mkdirPhase fs directories with
  | mk fs1 e1 =>
    simp only [h1] at h
    cases e1 with
    | some e => simp at h
    | none =>
      cases h2 : touchPhase fs1 files_to_create with
      | mk fs2 r2 =>
        obtain ⟨out2, e2⟩ := r2
        simp only [h2] at h
        cases e2 with
        | some e => simp at h
        | none =>
          cases h3 : chmod fs2 deployPath 0o755 with
          | error e => simp only [h3] at h; simp at h
          | ok fs3 =>
            simp only [h3, Prod.mk.injEq] at h
            obtain ⟨rfl, hout, -⟩ := h
            exact ⟨fs1, fs2, out2, rfl, h2, h3, hout.symm⟩

theorem run_ok_out {fs fs' : FS} {out : List String}
    (h : create_project_structure fs = (fs', out, none)) : out = runOut := by
  obtain ⟨fs1, fs2, out2, -, h2, -, hout⟩ := run_ok_decomp h
  rw [hout, touchPhase_ok_out _ _ _ _ h2]; rfl

/-! The default touch mode never contains an execute bit: 0o666 has none,
whatever the umask clears. -/

theorem touchMode_no_exec (u : Nat) : touchMode u &&& 0o111 = 0 := by
  unfold touchMode maskedMode
  rw [Nat.land_assoc, Nat.land_comm (0o777 ^^^ (u &&& 0o777)) 0o111, ← Nat.land_assoc,
    show (438 : Nat) &&& 73 = 0 by decide, Nat.zero_and]

/-! Symbolic evaluation of a full run from an empty working directory,
and of a second run over the result. -/

theorem run_empty_eval (u : Nat) :
    create_project_structure (emptyFS u) = (scaffoldedFS u, runOut, none) := by
  simp +decide [create_project_structure, mkdirPhase, mkdirParents, mkdirSeq, mkdirOne,
    touchPhase, touch, chmod, lookupFS, setFS, parentIsDir, splitPath, splitOnChar,
    prefixesNE, directories, files_to_create, deployPath, emptyFS, scaffoldedFS,
    runOut, summaryArg, hintArg]

theorem run_scaffolded_eval (u : Nat) :
    create_project_structure (scaffoldedFS u) = (scaffoldedFS u, runOut, none) := by
  simp +decide [create_project_structure, mkdirPhase, mkdirParents, mkdirSeq, mkdirOne,
    touchPhase, touch, chmod, lookupFS, setFS, parentIsDir, splitPath, splitOnChar,
    prefixesNE, directories, files_to_create, deployPath, scaffoldedFS,
    runOut, summaryArg, hintArg]

/-- C1: a run started in an empty (clean) working directory, under any
umask, succeeds; afterwards each of the 5 DirectoryList paths is a
directory, each of the 13 FileList paths is a zero-byte regular file,
and the final printed summary line is exactly
"Created 13 files and 5 directories" (followed only by the usage hint). -/
theorem clean_run_creates_all (u : Nat) :
    (create_project_structure (emptyFS u)).2.2 = none ∧
    directories.length = 5 ∧ files_to_create.length = 13 ∧
    directories.all (isDirAt (create_project_structure (emptyFS u)).1) = true ∧
    files_to_create.all (isEmptyFileAt (create_project_structure (emptyFS u)).1) = true ∧
    stdoutLines (create_project_structure (emptyFS u)).2.1 =
      files_to_create.map (fun f => "Created: " ++ f) ++
        ["", "Created 13 files and 5 directories", hintArg] := by
  rw [run_empty_eval]
  refine ⟨rfl, rfl, rfl, ?_, ?_, ?_⟩
  · simp +decide [directories, isDirAt, scaffoldedFS, lookupFS, splitPath, splitOnChar]
  · simp +decide [files_to_create, isEmptyFileAt, scaffoldedFS, lookupFS, splitPath,
      splitOnChar]
  · show stdoutLines runOut =
      files_to_create.map (fun f => "Created: " ++ f) ++
        ["", "Created 13 files and 5 directories", hintArg]
    decide

/-- C2: running the scaffolder a second time over the state a first run
left behind is idempotent: the second run raises no error, changes no
file, and prints exactly the same output (hence the same summary counts). -/
theorem second_run_idempotent (u : Nat) :
    create_project_structure ((create_project_structure (emptyFS u)).1) =
      ((create_project_structure (emptyFS u)).1,
        (create_project_structure (emptyFS u)).2.1, none) := by
  rw [run_empty_eval]
  exact run_scaffolded_eval u

/-- C3: on any successful run, every FileList path that already held a
file keeps its contents byte-for-byte (no truncation), and every
FileList path that was absent ends up as an empty file. -/
theorem existing_content_preserved (fs fs' : FS) (out : List String)
    (h : create_project_structure fs = (fs', out, none)) :
    (∀ f ∈ files_to_create, ∀ (c : List Nat) (m : Nat),
        lookupFS fs.nodes (splitPath f) = some (.file c m) →
        ∃ m2, lookupFS fs'.nodes (splitPath f) = some (.file c m2)) ∧
    (∀ f ∈ files_to_create,
        lookupFS fs.nodes (splitPath f) = none →
        ∃ m2, lookupFS fs'.nodes (splitPath f) = some (.file [] m2)) := by
  obtain ⟨fs1, fs2, out2, h1, h2, h3, -⟩ := run_ok_decomp h
  have hnp : ∀ f ∈ files_to_create, splitPath f ∉ allDirPrefixes directories := by decide
  constructor
  · intro f hf c m hlook
    have hp1 := mkdirPhase_ok_pres directories fs fs1 h1 _ _ hlook
    have hp2 := touchPhase_ok_pres files_to_create fs1 fs2 out2 h2 _ _ hp1
    exact chmod_ok_content h3 hp2
  · intro f hf hnone
    have h1n : lookupFS fs1.nodes (splitPath f) = none := by
      rw [mkdirPhase_ok_frame directories fs fs1 h1 _ (hnp f hf)]
      exact hnone
    have h2f := touchPhase_ok_makes files_to_create fs1 fs2 out2 h2 f hf h1n
    exact chmod_ok_content h3 h2f

/-- Witness for C3: k8s/02-mongodb.yaml pre-created with the content
"placeholder" keeps exactly that content across a run. -/
theorem existing_content_preserved_witness :
    ∃ m2, lookupFS ((create_project_structure preMongoFS).1).nodes
        (splitPath "k8s/02-mongodb.yaml") = some (.file placeholderContent m2) :=
  (existing_content_preserved preMongoFS (create_project_structure preMongoFS).1
      (create_project_structure preMongoFS).2.1 (by decide)).1
    "k8s/02-mongodb.yaml" (by decide) placeholderContent 0o644 (by decide)

/-- C4: after any successful run the node at scripts/deploy.sh has mode
exactly 0o755, and as long as that path was not a pre-existing
directory it is a regular file with mode 0o755 — regardless of whether
the file, or any prior mode, existed before the run. -/
theorem deploy_sh_mode_0755 (fs fs' : FS) (out : List String)
    (h : create_project_structure fs = (fs', out, none)) :
    (∃ n, lookupFS fs'.nodes deployPath = some n ∧ nodeMode n = 0o755) ∧
    (isDirNode (lookupFS fs.nodes deployPath) = false →
      ∃ c, lookupFS fs'.nodes deployPath = some (.file c 0o755)) := by
  obtain ⟨fs1, fs2, out2, h1, h2, h3, -⟩ := run_ok_decomp h
  refine ⟨chmod_ok_self h3, ?_⟩
  intro hnd
  have hfr : deployPath ∉ allDirPrefixes directories := by decide
  have heq : lookupFS fs1.nodes deployPath = lookupFS fs.nodes deployPath :=
    mkdirPhase_ok_frame directories fs fs1 h1 _ hfr
  have hdep : "scripts/deploy.sh" ∈ files_to_create := by decide
  have hsp : splitPath "scripts/deploy.sh" = deployPath := rfl
  rcases touchPhase_ok_kind files_to_create fs1 fs2 out2 h2 _ hdep with
    ⟨c, m, hfile⟩ | ⟨m, hdir⟩
  · rw [hsp] at hfile
    exact ⟨c, chmod_ok_file_self h3 hfile⟩
  · rw [hsp, heq] at hdir
    rw [hdir] at hnd
    simp [isDirNode] at hnd

/-- Witness for C4: a pre-existing scripts/deploy.sh with mode 0 ends
up as a file with mode 0o755. -/
theorem deploy_sh_mode_0755_witness :
    ∃ c, lookupFS ((create_project_structure preDeployFS).1).nodes deployPath =
      some (.file c 0o755) :=
  (deploy_sh_mode_0755 preDeployFS (create_project_structure preDeployFS).1
      (create_project_structure preDeployFS).2.1 (by decide)).2 (by decide)

/-- C5: for any umask, every FileList path other than scripts/deploy.sh
ends a clean-directory run as an empty file carrying the default touch
creation mode, and that default mode has no executable bit. -/
theorem non_deploy_files_not_executable (u : Nat) (f : String)
    (hf : f ∈ files_to_create) (hne : f ≠ "scripts/deploy.sh") :
    lookupFS ((create_project_structure (emptyFS u)).1).nodes (splitPath f) =
      some (.file [] (touchMode u)) ∧ touchMode u &&& 0o111 = 0 := by
  refine ⟨?_, touchMode_no_exec u⟩
  rw [run_empty_eval]
  fin_cases hf <;>
    first
      | exact absurd rfl hne
      | simp +decide [scaffoldedFS, lookupFS, splitPath, splitOnChar]

/-- Witness for C5 at umask 0o022 and the file Makefile. -/
theorem non_deploy_files_not_executable_witness :
    lookupFS ((create_project_structure (emptyFS 18)).1).nodes (splitPath "Makefile") =
      some (.file [] (touchMode 18)) ∧ touchMode 18 &&& 0o111 = 0 :=
  non_deploy_files_not_executable 18 "Makefile" (by decide) (by decide)

/-- C6: every successful run decomposes into the fixed sequence: first
the directory phase (after which all five manifest directories exist),
then the file phase, then the chmod of scripts/deploy.sh (producing the
final state), with the summary and hint printed last. -/
theorem phases_run_in_order (fs fs' : FS) (out : List String)
    (h : create_project_structure fs = (fs', out, none)) :
    ∃ fs1 fs2 out2,
      mkdirPhase fs directories = (fs1, none) ∧
      directories.all (isDirAt fs1) = true ∧
      touchPhase fs1 files_to_create = (fs2, out2, none) ∧
      chmod fs2 deployPath 0o755 = .ok fs' ∧
      out = out2 ++ [summaryArg, hintArg] := by
  obtain ⟨fs1, fs2, out2, h1, h2, h3, hout⟩ := run_ok_decomp h
  refine ⟨fs1, fs2, out2, h1, ?_, h2, h3, hout⟩
  rw [List.all_eq_true]
  intro d hd
  obtain ⟨m, hm⟩ := mkdirPhase_ok_makes directories fs fs1 h1 d hd
  simp [isDirAt, hm]

/-- Witness for C6 on the clean run at umask 0o022. -/
theorem phases_run_in_order_witness :
    ∃ fs1 fs2 out2,
      mkdirPhase (emptyFS 18) directories = (fs1, none) ∧
      directories.all (isDirAt fs1) = true ∧
      touchPhase fs1 files_to_create = (fs2, out2, none) ∧
      chmod fs2 deployPath 0o755 = .ok (create_project_structure (emptyFS 18)).1 ∧
      (create_project_structure (emptyFS 18)).2.1 = out2 ++ [summaryArg, hintArg] :=
  phases_run_in_order (emptyFS 18) (create_project_structure (emptyFS 18)).1
    (create_project_structure (emptyFS 18)).2.1 (by decide)

/-- C7: in a read-only empty working directory the very first directory
creation fails with a permission error, the run aborts there with that
error, nothing is printed, the state is unchanged, and no FileList path
exists afterwards. -/
theorem readonly_run_aborts_early (u : Nat) :
    create_project_structure (emptyRO u) = (emptyRO u, [], some .permissionDenied) ∧
    mkdirOne (emptyRO u) ["api"] = .error .permissionDenied ∧
    files_to_create.all
      (fun f => (lookupFS (create_project_structure (emptyRO u)).1.nodes
        (splitPath f)).isNone) = true := by
  refine ⟨?_, ?_, ?_⟩
  · simp +decide [create_project_structure, mkdirPhase, mkdirParents, mkdirSeq, mkdirOne,
      lookupFS, parentIsDir, splitPath, splitOnChar, prefixesNE, directories, emptyRO]
  · simp +decide [mkdirOne, lookupFS, emptyRO]
  · simp +decide [create_project_structure, mkdirPhase, mkdirParents, mkdirSeq, mkdirOne,
      lookupFS, parentIsDir, splitPath, splitOnChar, prefixesNE, directories,
      files_to_create, emptyRO]

/-- C8: the exit status is zero exactly when no filesystem error
occurred, and any error in the directory phase, the file phase, or the
chmod aborts the run at that point, propagating the same error with no
recovery and executing nothing further. -/
theorem errors_abort_and_propagate (fs : FS) :
    (exitCode fs = 0 ↔ (create_project_structure fs).2.2 = none) ∧
    (∀ (fs1 : FS) (e : Err), mkdirPhase fs directories = (fs1, some e) →
      create_project_structure fs = (fs1, [], some e)) ∧
    (∀ (fs1 fs2 : FS) (out2 : List String) (e : Err),
      mkdirPhase fs directories = (fs1, none) →
      touchPhase fs1 files_to_create = (fs2, out2, some e) →
      create_project_structure fs = (fs2, out2, some e)) ∧
    (∀ (fs1 fs2 : FS) (out2 : List String) (e : Err),
      mkdirPhase fs directories = (fs1, none) →
      touchPhase fs1 files_to_create = (fs2, out2, none) →
      chmod fs2 deployPath 0o755 = .error e →
      create_project_structure fs = (fs2, out2, some e)) := by
  refine ⟨?_, ?_, ?_, ?_⟩
  · unfold exitCode
    cases hc : (create_project_structure fs).2.2 with
    | none => simp
    | some e => simp
  · intro fs1 e h1
    unfold create_project_structure
    simp only [h1]
  · intro fs1 fs2 out2 e h1 h2
    unfold create_project_structure
    simp only [h1, h2]
  · intro fs1 fs2 out2 e h1 h2 h3
    unfold create_project_structure
    simp only [h1, h2, h3]

/-- Witness for C8: the read-only-directory failure propagates as the
run's result. -/
theorem errors_abort_and_propagate_witness :
    create_project_structure (emptyRO 18) = (emptyRO 18, [], some .permissionDenied) :=
  (errors_abort_and_propagate (emptyRO 18)).2.1 (emptyRO 18) .permissionDenied (by decide)

/-- C9 (counterexample): on the successful clean run the standard
output is NOT just the per-file lines followed directly by the two-line
summary — the summary print starts with a newline, so a blank line
separates them; the claim as stated is false at this input. -/
theorem output_lines_claim_counterexample :
    (create_project_structure (emptyFS 18)).2.2 = none ∧
    stdoutLines (create_project_structure (emptyFS 18)).2.1 ≠
      files_to_create.map (fun f => "Created: " ++ f) ++
        ["Created 13 files and 5 directories", hintArg] := by
  decide

/-- C9 (amended): on every successful run, standard output consists of
one line per FileList entry of the exact form "Created: <path>",
followed by a blank line and then the two-line summary: the line
"Created 13 files and 5 directories" and the static usage-hint line. -/
theorem run_output_with_blank_line {fs fs' : FS} {out : List String}
    (h : create_project_structure fs = (fs', out, none)) :
    stdoutLines out =
      files_to_create.map (fun f => "Created: " ++ f) ++
        ["", "Created 13 files and 5 directories", hintArg] := by
  rw [run_ok_out h]
  decide

/-- Witness for the amended C9 on the clean run at umask 0o022. -/
theorem run_output_with_blank_line_witness :
    stdoutLines (create_project_structure (emptyFS 18)).2.1 =
      files_to_create.map (fun f => "Created: " ++ f) ++
        ["", "Created 13 files and 5 directories", hintArg] :=
  @run_output_with_blank_line (emptyFS 18) (create_project_structure (emptyFS 18)).1
    (create_project_structure (emptyFS 18)).2.1 (by decide)

/-- C10: whenever the run completes, exactly the 13 "Created: <path>"
lines appear, one per FileList entry in manifest order, and the summary
counts are the static list lengths 13 and 5 — independent of the
starting state. -/
theorem printed_lines_independent_of_state {fs fs' : FS} {out : List String}
    (h : create_project_structure fs = (fs', out, none)) :
    (stdoutLines out).filter hasCreatedTag =
      files_to_create.map (fun f => "Created: " ++ f) ∧
    ((stdoutLines out).filter hasCreatedTag).length = files_to_create.length ∧
    ("Created " ++ toString files_to_create.length ++ " files and "
        ++ toString directories.length ++ " directories") ∈ stdoutLines out ∧
    files_to_create.length = 13 ∧ directories.length = 5 := by
  rw [run_ok_out h]
  refine ⟨by decide, by decide, by decide, rfl, rfl⟩

/-- Witness for C10 on the clean run at umask 0o022. -/
theorem printed_lines_independent_of_state_witness :
    (stdoutLines (create_project_structure (emptyFS 18)).2.1).filter hasCreatedTag =
      files_to_create.map (fun f => "Created: " ++ f) ∧
    ((stdoutLines (create_project_structure (emptyFS 18)).2.1).filter
        hasCreatedTag).length = files_to_create.length ∧
    ("Created " ++ toString files_to_create.length ++ " files and "
        ++ toString directories.length ++ " directories") ∈
      stdoutLines (create_project_structure (emptyFS 18)).2.1 ∧
    files_to_create.length = 13 ∧ directories.length = 5 :=
  @printed_lines_independent_of_state (emptyFS 18) (create_project_structure (emptyFS 18)).1
    (create_project_structure (emptyFS 18)).2.1 (by decide)

end Scaffold
